import Mathlib

/-!
Shallow embedding of the numerical core of the `did-i-see-a-sonde` utilities
(`utils.py`, `step2.py`): the geodetic look-angle solver `position_info`, the
standard-atmosphere density model `getDensity`, the derived
`seaLevelDescentRate`, and the visibility filter loop of `step2.py`.

Python floats are modelled as real numbers; `math.atan2 y x` is modelled as
`Complex.arg ⟨x, y⟩` (both take values in `(-π, π]` with the same quadrant
conventions, and both send `(0, 0)` to `0`); list indexing that can raise
`IndexError` is modelled with `Option`.
-/

noncomputable section

open scoped Classical

/-- Model of Python `math.atan2 y x`: the argument of the complex number
`x + y·i`, in `(-π, π]`, with `atan2 0 0 = 0`. -/
def atan2 (y x : ℝ) : ℝ := Complex.arg ⟨x, y⟩

/-- Model of Python `math.radians`. -/
def radians (x : ℝ) : ℝ := x * Real.pi / 180

/-- Model of Python `math.degrees`. -/
def degrees (x : ℝ) : ℝ := x * 180 / Real.pi

/-- Result record of `position_info` (the dict returned in `utils.py`). -/
structure PositionInfo where
  listener : ℝ × ℝ × ℝ
  balloon : ℝ × ℝ × ℝ
  listener_radians : ℝ × ℝ × ℝ
  balloon_radians : ℝ × ℝ × ℝ
  angle_at_centre : ℝ
  angle_at_centre_radians : ℝ
  bearing : ℝ
  bearing_radians : ℝ
  great_circle_distance : ℝ
  straight_distance : ℝ
  elevation : ℝ
  elevation_radians : ℝ

/-- Embedding of `utils.position_info` (lines 18–102 of `utils.py`):
spherical Vincenty-style bearing/angle-at-centre, then the planar triangle
solve for elevation and straight-line distance, with the negative-bearing
normalisation `if bearing < 0: bearing += 2*pi`. -/
def position_info (listener balloon : ℝ × ℝ × ℝ) : PositionInfo :=
  let radius : ℝ := 6364963
  let lat1 := radians listener.1
  let lat2 := radians balloon.1
  let lon1 := radians listener.2.1
  let lon2 := radians balloon.2.1
  let alt1 := listener.2.2
  let alt2 := balloon.2.2
  let d_lon := lon2 - lon1
  let sa := Real.cos lat2 * Real.sin d_lon
  let sb := Real.cos lat1 * Real.sin lat2 - Real.sin lat1 * Real.cos lat2 * Real.cos d_lon
  let bearing0 := atan2 sa sb
  let aa := Real.sqrt (sa ^ 2 + sb ^ 2)
  let ab := Real.sin lat1 * Real.sin lat2 + Real.cos lat1 * Real.cos lat2 * Real.cos d_lon
  let angle_at_centre := atan2 aa ab
  let great_circle_distance := angle_at_centre * radius
  let ta := radius + alt1
  let tb := radius + alt2
  let ea := Real.cos angle_at_centre * tb - ta
  let eb := Real.sin angle_at_centre * tb
  let elevation := atan2 ea eb
  let distance := Real.sqrt (ta ^ 2 + tb ^ 2 - 2 * tb * ta * Real.cos angle_at_centre)
  let bearing := if bearing0 < 0 then bearing0 + 2 * Real.pi else bearing0
  { listener := listener
    balloon := balloon
    listener_radians := (lat1, lon1, alt1)
    balloon_radians := (lat2, lon2, alt2)
    angle_at_centre := degrees angle_at_centre
    angle_at_centre_radians := angle_at_centre
    bearing := degrees bearing
    bearing_radians := bearing
    great_circle_distance := great_circle_distance
    straight_distance := distance
    elevation := degrees elevation
    elevation_radians := elevation }

/-- Altitude lookup table of `getDensity` (`utils.py`). -/
def altitudes : List ℝ := [0, 11000, 20000, 32000, 47000, 51000, 71000, 84852]

/-- Relative-pressure lookup table of `getDensity`. -/
def pressureRels : List ℝ :=
  [1, 2.23361105092158e-1, 5.403295010784876e-2, 8.566678359291667e-3,
   1.0945601337771144e-3, 6.606353132858367e-4, 3.904683373343926e-5,
   3.6850095235747942e-6]

/-- Base-temperature lookup table of `getDensity`. -/
def temperatures : List ℝ := [288.15, 216.65, 216.65, 228.65, 270.65, 270.65, 214.65, 186.946]

/-- Temperature-gradient lookup table of `getDensity` (K/km). -/
def tempGrads : List ℝ := [-6.5, 0, 1, 2.8, 0, -2.8, -2, 0]

/-- The constant `gMR = gravity * airMolWeight / RGas` of `getDensity`. -/
def gMR : ℝ := 9.80665 * 28.9644 / 8.31432

/-- Embedding of the band-selection loop of `getDensity`:
`while altitude > altitudes[i + 1]: i = i + 1`.  The Python list access
`altitudes[i + 1]` raises `IndexError` once `i + 1` is out of range, modelled
by `none`. -/
def bandScan (altitude : ℝ) (i : ℕ) : Option ℕ :=
  if h : i + 1 < altitudes.length then
    if altitude > altitudes[i + 1] then bandScan altitude (i + 1) else some i
  else none
termination_by altitudes.length - i
decreasing_by omega

/-- Band selection of `getDensity`: `i = 0; if altitude > 0: while ...`. -/
def bandIndex (altitude : ℝ) : Option ℕ :=
  if altitude > 0 then bandScan altitude 0 else some 0

/-- The table lookups and density formula of `getDensity` for a selected band
`i`: `baseTemp`, `tempGrad`, `pressureRelBase`, `deltaAltitude`, the
isothermal/gradient split on `|tempGrad| < 1e-10`, and the final density
expression.  Real-exponent `math.pow`/`math.exp` are `Real.rpow`/`Real.exp`. -/
def bandDensity (altitude : ℝ) (i : ℕ) : Option ℝ :=
  match temperatures[i]?, tempGrads[i]?, pressureRels[i]?, altitudes[i]? with
  | some baseTemp, some tg, some pressureRelBase, some baseAlt =>
    let tempGrad := tg / 1000
    let deltaAltitude := altitude - baseAlt
    let temperature := baseTemp + tempGrad * deltaAltitude
    let pressureRel :=
      if |tempGrad| < 1e-10 then
        pressureRelBase * Real.exp (-1 * gMR * deltaAltitude / 1000 / baseTemp)
      else
        pressureRelBase * (baseTemp / temperature) ^ (gMR / tempGrad / 1000)
    some (1.225 * pressureRel * 288.15 / temperature)
  | _, _, _, _ => none

/-- Embedding of `utils.getDensity` (lines 106–169 of `utils.py`).  Returns
`none` exactly when the Python function raises `IndexError` in its
band-selection loop. -/
def getDensity (altitude : ℝ) : Option ℝ :=
  match bandIndex altitude with
  | none => none
  | some i => bandDensity altitude i

/-- Embedding of `utils.seaLevelDescentRate`:
`sqrt((rho / 1.225) * pow(descent_rate, 2))`, propagating a `getDensity`
failure. -/
def seaLevelDescentRate (descent_rate altitude : ℝ) : Option ℝ :=
  (getDensity altitude).map (fun rho => Real.sqrt (rho / 1.225 * descent_rate ^ 2))

/-- One telemetry entry as consumed by the `step2.py` filter loop: the fields
it reads (`serial`, `lat`, `lon`, `alt`, `datetime`).  The parsed datetime is
modelled as an absolute time in seconds. -/
structure TelemetryEntry where
  serial : String
  lat : ℝ
  lon : ℝ
  alt : ℝ
  time : ℝ

/-- Observer configuration of the `step2.py` filter loop (command-line
arguments for position, `datetime`, `min_el` and `window`). -/
structure FilterConfig where
  observer : ℝ × ℝ × ℝ
  observer_time : ℝ
  min_el : ℝ
  window : ℝ

/-- The visibility predicate applied to each entry by the `step2.py` loop:
`_pos_info['elevation'] > args.min_el` and
`abs((observer_time - _pos_time).total_seconds()) < args.window`. -/
def visPred (cfg : FilterConfig) (e : TelemetryEntry) : Prop :=
  (position_info cfg.observer (e.lat, e.lon, e.alt)).elevation > cfg.min_el ∧
    |cfg.observer_time - e.time| < cfg.window

/-- One iteration of the `step2.py` filter loop acting on the `serials`
dictionary: `serials[_entry['serial']] = _entry` when the predicate holds. -/
def filterStep (cfg : FilterConfig) (m : String → Option TelemetryEntry)
    (e : TelemetryEntry) : String → Option TelemetryEntry :=
  if visPred cfg e then fun k => if k = e.serial then some e else m k else m

/-- The whole `step2.py` filter loop: fold the entries in input order into the
(initially empty) `serials` dictionary. -/
def findVisible (cfg : FilterConfig) (rs : List TelemetryEntry) :
    String → Option TelemetryEntry :=
  rs.foldl (filterStep cfg) (fun _ => none)

/-- A concrete observer configuration used in evaluation examples: observer at
`(0, 0, 0)`, reference time `0`, elevation threshold `-5`, window `14400`. -/
def cfgW : FilterConfig := ⟨(0, 0, 0), 0, -5, 14400⟩

/-- A concrete telemetry entry straight above `cfgW`'s observer, 100 s after
the reference time. -/
def entryA : TelemetryEntry := ⟨"X", 0, 0, 1000, 100⟩

/-- A second concrete telemetry entry with the same serial as `entryA`, 200 s
after the reference time. -/
def entryB : TelemetryEntry := ⟨"X", 0, 0, 1000, 200⟩

/-! Basic facts about the `atan2` model, inherited from `Complex.arg`. -/

lemma atan2_zero_zero : atan2 0 0 = 0 := by
  unfold atan2
  have h : (⟨0, 0⟩ : ℂ) = 0 := Complex.ext rfl rfl
  rw [h, Complex.arg_zero]

lemma atan2_zero_pos (x : ℝ) (h : 0 < x) : atan2 0 x = 0 := by
  unfold atan2
  rw [Complex.arg_eq_zero_iff]
  exact ⟨le_of_lt h, rfl⟩

lemma atan2_pos_zero (y : ℝ) (h : 0 < y) : atan2 y 0 = Real.pi / 2 := by
  unfold atan2
  rw [Complex.arg_eq_pi_div_two_iff]
  exact ⟨rfl, h⟩

lemma atan2_neg_zero (y : ℝ) (h : y < 0) : atan2 y 0 = -(Real.pi / 2) := by
  unfold atan2
  rw [Complex.arg_eq_neg_pi_div_two_iff]
  exact ⟨rfl, h⟩

lemma atan2_zero_neg (x : ℝ) (h : x < 0) : atan2 0 x = Real.pi := by
  unfold atan2
  rw [Complex.arg_eq_pi_iff]
  exact ⟨h, rfl⟩

lemma atan2_le_pi (y x : ℝ) : atan2 y x ≤ Real.pi := Complex.arg_le_pi _

lemma neg_pi_lt_atan2 (y x : ℝ) : -Real.pi < atan2 y x := Complex.neg_pi_lt_arg _

lemma atan2_nonneg (y x : ℝ) (h : 0 ≤ y) : 0 ≤ atan2 y x :=
  Complex.arg_nonneg_iff.mpr h

lemma abs_atan2_le_pi_div_two (y x : ℝ) (h : 0 ≤ x) : |atan2 y x| ≤ Real.pi / 2 :=
  Complex.abs_arg_le_pi_div_two_iff.mpr h

/-! Conversion bounds for `degrees`. -/

lemma degrees_nonneg_lt_360 (t : ℝ) (h0 : 0 ≤ t) (h1 : t < 2 * Real.pi) :
    0 ≤ degrees t ∧ degrees t < 360 := by
  have hpi := Real.pi_pos
  constructor
  · exact div_nonneg (by nlinarith) hpi.le
  · rw [degrees, div_lt_iff₀ hpi]
    nlinarith

lemma degrees_abs_le_90 (t : ℝ) (h : |t| ≤ Real.pi / 2) :
    -90 ≤ degrees t ∧ degrees t ≤ 90 := by
  have hpi := Real.pi_pos
  rw [abs_le] at h
  constructor
  · rw [degrees, le_div_iff₀ hpi]
    nlinarith [h.1]
  · rw [degrees, div_le_iff₀ hpi]
    nlinarith [h.2]

/-! Unfolding lemmas for the band-selection loop. -/

lemma bandScan_step (alt : ℝ) (i : ℕ) (h : i + 1 < altitudes.length) :
    bandScan alt i = if alt > altitudes[i + 1] then bandScan alt (i + 1) else some i := by
  rw [bandScan]
  rw [dif_pos h]

lemma bandScan_stop (alt : ℝ) (i : ℕ) (h : ¬ i + 1 < altitudes.length) :
    bandScan alt i = none := by
  rw [bandScan, dif_neg h]

lemma bandIndex_of_le_11000 (alt : ℝ) (h : alt ≤ 11000) : bandIndex alt = some 0 := by
  unfold bandIndex
  by_cases h0 : alt > 0
  · rw [if_pos h0, bandScan_step alt 0 (by simp [altitudes]), if_neg]
    have h1 : altitudes[0 + 1] = (11000 : ℝ) := by norm_num [altitudes]
    rw [h1]
    linarith
  · rw [if_neg h0]

lemma bandScan_some_of_le_top (alt : ℝ) (halt : alt ≤ 84852) :
    ∀ k i, 6 - i ≤ k → i ≤ 6 → ∃ j, j ≤ 6 ∧ bandScan alt i = some j := by
  intro k
  induction k with
  | zero =>
    intro i hk h6
    have hi : i = 6 := by omega
    subst hi
    rw [bandScan_step alt 6 (by simp [altitudes])]
    rw [if_neg]
    · exact ⟨6, le_refl 6, rfl⟩
    · have h7 : altitudes[6 + 1] = (84852 : ℝ) := by norm_num [altitudes]
      rw [h7]
      linarith
  | succ k ih =>
    intro i hk h6
    by_cases hi : i = 6
    · subst hi
      rw [bandScan_step alt 6 (by simp [altitudes])]
      rw [if_neg]
      · exact ⟨6, le_refl 6, rfl⟩
      · have h7 : altitudes[6 + 1] = (84852 : ℝ) := by norm_num [altitudes]
        rw [h7]
        linarith
    · have hlen : i + 1 < altitudes.length := by simp [altitudes]; omega
      rw [bandScan_step alt i hlen]
      by_cases hgt : alt > altitudes[i + 1]
      · rw [if_pos hgt]
        exact ih (i + 1) (by omega) (by omega)
      · rw [if_neg hgt]
        exact ⟨i, by omega, rfl⟩

lemma bandIndex_some_of_le_top (alt : ℝ) (h : alt ≤ 84852) :
    ∃ j, j ≤ 6 ∧ bandIndex alt = some j := by
  unfold bandIndex
  by_cases h0 : alt > 0
  · rw [if_pos h0]
    exact bandScan_some_of_le_top alt h 6 0 (by omega) (by omega)
  · rw [if_neg h0]
    exact ⟨0, by omega, rfl⟩

/-- Closed form of `getDensity` in the troposphere band (band 0), where the
scan stops immediately. -/
lemma getDensity_band0 (alt : ℝ) (h : alt ≤ 11000) :
    getDensity alt =
      some (1.225 * (1 * (288.15 / (288.15 + -6.5 / 1000 * (alt - 0)))
          ^ (gMR / (-6.5 / 1000) / 1000)) * 288.15 / (288.15 + -6.5 / 1000 * (alt - 0))) := by
  unfold getDensity
  rw [bandIndex_of_le_11000 alt h]
  show bandDensity alt 0 = _
  unfold bandDensity
  have ht : temperatures[(0 : ℕ)]? = some (288.15 : ℝ) := by norm_num [temperatures]
  have hg : tempGrads[(0 : ℕ)]? = some (-6.5 : ℝ) := by norm_num [tempGrads]
  have hp : pressureRels[(0 : ℕ)]? = some (1 : ℝ) := by norm_num [pressureRels]
  have ha : altitudes[(0 : ℕ)]? = some (0 : ℝ) := by norm_num [altitudes]
  simp only [ht, hg, hp, ha]
  rw [if_neg]
  have habs : |(-6.5 : ℝ) / 1000| = 6.5 / 1000 := by
    rw [abs_div, abs_of_nonneg (by norm_num : (0:ℝ) ≤ 1000),
      abs_of_nonpos (by norm_num : (-6.5:ℝ) ≤ 0)]
    norm_num
  rw [habs]
  norm_num

lemma getDensity_zero : getDensity 0 = some 1.225 := by
  rw [getDensity_band0 0 (by norm_num)]
  have h1 : (288.15 : ℝ) + -6.5 / 1000 * ((0 : ℝ) - 0) = 288.15 := by norm_num
  rw [h1]
  have h2 : (288.15 : ℝ) / 288.15 = 1 := by norm_num
  rw [h2, Real.one_rpow]
  norm_num

/-! Evaluation of `position_info` when observer and target share latitude and
longitude and the target is higher. -/

lemma position_info_same_latlon (lat lon alt1 alt2 : ℝ) (h : alt1 < alt2) :
    (position_info (lat, lon, alt1) (lat, lon, alt2)).bearing = 0 ∧
    (position_info (lat, lon, alt1) (lat, lon, alt2)).elevation = 90 ∧
    (position_info (lat, lon, alt1) (lat, lon, alt2)).straight_distance = alt2 - alt1 := by
  have hpi := Real.pi_pos
  simp only [position_info]
  set x := radians lat with hx
  have hdlon : radians lon - radians lon = 0 := by ring
  rw [hdlon]
  have hsa : Real.cos x * Real.sin 0 = 0 := by simp
  have hsb : Real.cos x * Real.sin x - Real.sin x * Real.cos x * Real.cos 0 = 0 := by
    rw [Real.cos_zero]
    ring
  rw [hsa, hsb]
  have haa : Real.sqrt ((0 : ℝ) ^ 2 + 0 ^ 2) = 0 := by simp
  have hab : Real.sin x * Real.sin x + Real.cos x * Real.cos x * Real.cos 0 = 1 := by
    rw [Real.cos_zero]
    linear_combination Real.sin_sq_add_cos_sq x
  rw [atan2_zero_zero, haa, hab]
  rw [atan2_zero_pos 1 one_pos]
  have hea : Real.cos 0 * (6364963 + alt2) - (6364963 + alt1) = alt2 - alt1 := by
    rw [Real.cos_zero]
    ring
  have heb : Real.sin 0 * (6364963 + alt2) = 0 := by simp
  rw [hea, heb]
  rw [atan2_pos_zero _ (by linarith : (0 : ℝ) < alt2 - alt1)]
  refine ⟨?_, ?_, ?_⟩
  · rw [if_neg (by norm_num)]
    simp [degrees]
  · rw [degrees]
    field_simp
    ring
  · rw [Real.cos_zero]
    have hsq : (6364963 + alt1) ^ 2 + (6364963 + alt2) ^ 2 -
        2 * (6364963 + alt2) * (6364963 + alt1) * 1 = (alt2 - alt1) ^ 2 := by ring
    rw [hsq, Real.sqrt_sq (by linarith)]

/-! Facts about the filter fold. -/

lemma visPred_entryA : visPred cfgW entryA := by
  constructor
  · show (position_info (0, 0, 0) (0, 0, 1000)).elevation > -5
    rw [(position_info_same_latlon 0 0 0 1000 (by norm_num)).2.1]
    norm_num
  · show |(0 : ℝ) - 100| < 14400
    rw [show (0 : ℝ) - 100 = -100 by norm_num, abs_neg,
      abs_of_nonneg (by norm_num : (0 : ℝ) ≤ 100)]
    norm_num

lemma visPred_entryB : visPred cfgW entryB := by
  constructor
  · show (position_info (0, 0, 0) (0, 0, 1000)).elevation > -5
    rw [(position_info_same_latlon 0 0 0 1000 (by norm_num)).2.1]
    norm_num
  · show |(0 : ℝ) - 200| < 14400
    rw [show (0 : ℝ) - 200 = -200 by norm_num, abs_neg,
      abs_of_nonneg (by norm_num : (0 : ℝ) ≤ 200)]
    norm_num

lemma foldl_filterStep_no_match (cfg : FilterConfig) (l : List TelemetryEntry) (s : String)
    (h : ∀ e ∈ l, e.serial = s → ¬ visPred cfg e) (m : String → Option TelemetryEntry) :
    (l.foldl (filterStep cfg) m) s = m s := by
  induction l generalizing m with
  | nil => rfl
  | cons e l ih =>
    rw [List.foldl_cons]
    rw [ih (fun x hx => h x (List.mem_cons_of_mem e hx))]
    unfold filterStep
    by_cases hp : visPred cfg e
    · rw [if_pos hp]
      have hne : s ≠ e.serial := fun heq => h e (List.mem_cons_self e l) heq.symm hp
      rw [if_neg hne]
    · rw [if_neg hp]

lemma foldl_filterStep_isSome (cfg : FilterConfig) (l : List TelemetryEntry) (s : String)
    (m : String → Option TelemetryEntry) (h : (m s).isSome) :
    ((l.foldl (filterStep cfg) m) s).isSome := by
  induction l generalizing m with
  | nil => exact h
  | cons e l ih =>
    rw [List.foldl_cons]
    apply ih
    unfold filterStep
    by_cases hp : visPred cfg e
    · rw [if_pos hp]
      by_cases hs : s = e.serial
      · rw [if_pos hs]
        rfl
      · rw [if_neg hs]
        exact h
    · rw [if_neg hp]
      exact h

lemma foldl_filterStep_sound (cfg : FilterConfig) (l : List TelemetryEntry) :
    ∀ (m : String → Option TelemetryEntry) (s : String) (r : TelemetryEntry),
      (l.foldl (filterStep cfg) m) s = some r →
      m s = some r ∨ (r ∈ l ∧ r.serial = s ∧ visPred cfg r) := by
  induction l with
  | nil => exact fun m s r h => Or.inl h
  | cons e l ih =>
    intro m s r h
    rw [List.foldl_cons] at h
    rcases ih _ s r h with h1 | h2
    · unfold filterStep at h1
      by_cases hp : visPred cfg e
      · rw [if_pos hp] at h1
        by_cases hs : s = e.serial
        · rw [if_pos hs] at h1
          have he : e = r := Option.some.inj h1
          subst he
          exact Or.inr ⟨List.mem_cons_self e l, hs.symm, hp⟩
        · rw [if_neg hs] at h1
          exact Or.inl h1
      · rw [if_neg hp] at h1
        exact Or.inl h1
    · exact Or.inr ⟨List.mem_cons_of_mem e h2.1, h2.2⟩

lemma foldl_filterStep_mem_isSome (cfg : FilterConfig) (l : List TelemetryEntry)
    (e : TelemetryEntry) : ∀ m, e ∈ l → visPred cfg e →
      ((l.foldl (filterStep cfg) m) e.serial).isSome := by
  induction l with
  | nil => intro m hmem; cases hmem
  | cons a l ih =>
    intro m hmem hp
    rw [List.foldl_cons]
    rcases List.mem_cons.mp hmem with heq | hmem2
    · subst heq
      apply foldl_filterStep_isSome
      unfold filterStep
      rw [if_pos hp, if_pos rfl]
      rfl
    · exact ih _ hmem2 hp

/-- Range of the bearing normalisation `if bearing < 0: bearing += 2*pi`
applied to an `atan2` result. -/
lemma norm_bearing_mem (b0 : ℝ) (h1 : -Real.pi < b0) (h2 : b0 ≤ Real.pi) :
    0 ≤ degrees (if b0 < 0 then b0 + 2 * Real.pi else b0) ∧
    degrees (if b0 < 0 then b0 + 2 * Real.pi else b0) < 360 := by
  have hpi := Real.pi_pos
  apply degrees_nonneg_lt_360
  · by_cases h : b0 < 0
    · rw [if_pos h]
      linarith
    · rw [if_neg h]
      linarith
  · by_cases h : b0 < 0
    · rw [if_pos h]
      linarith
    · rw [if_neg h]
      linarith

/-- The angle-at-centre expression of `position_info` is invariant under
swapping the two positions (the longitude difference flips sign). -/
lemma angle_expr_symm (x1 x2 d : ℝ) :
    atan2 (Real.sqrt ((Real.cos x2 * Real.sin d) ^ 2 +
        (Real.cos x1 * Real.sin x2 - Real.sin x1 * Real.cos x2 * Real.cos d) ^ 2))
      (Real.sin x1 * Real.sin x2 + Real.cos x1 * Real.cos x2 * Real.cos d) =
    atan2 (Real.sqrt ((Real.cos x1 * Real.sin (-d)) ^ 2 +
        (Real.cos x2 * Real.sin x1 - Real.sin x2 * Real.cos x1 * Real.cos (-d)) ^ 2))
      (Real.sin x2 * Real.sin x1 + Real.cos x2 * Real.cos x1 * Real.cos (-d)) := by
  rw [Real.sin_neg, Real.cos_neg]
  have ha := Real.sin_sq_add_cos_sq x1
  have hb := Real.sin_sq_add_cos_sq x2
  have hd := Real.sin_sq_add_cos_sq d
  congr 1
  · congr 1
    linear_combination (Real.sin d ^ 2 * Real.cos x1 ^ 2) * hb -
      (Real.sin d ^ 2 * Real.cos x2 ^ 2) * ha -
      (Real.cos x1 ^ 2 * Real.sin x2 ^ 2 - Real.cos x2 ^ 2 * Real.sin x1 ^ 2) * hd
  · ring

/-- Claim C1, counterexample: at altitude `84853` (strictly above the top
table entry `84852`) the band-selection scan of `getDensity` walks past the
end of the 8-entry altitude table, so the Python code raises `IndexError`
(modelled as `none`) instead of silently extrapolating. -/
theorem getDensity_above_table_fails : getDensity 84853 = none := by
  have hscan : bandScan 84853 0 = none := by
    rw [bandScan_step 84853 0 (by norm_num [altitudes]),
      if_pos (show (84853 : ℝ) > altitudes[0 + 1] by norm_num [altitudes])]
    rw [bandScan_step 84853 1 (by norm_num [altitudes]),
      if_pos (show (84853 : ℝ) > altitudes[1 + 1] by norm_num [altitudes])]
    rw [bandScan_step 84853 2 (by norm_num [altitudes]),
      if_pos (show (84853 : ℝ) > altitudes[2 + 1] by norm_num [altitudes])]
    rw [bandScan_step 84853 3 (by norm_num [altitudes]),
      if_pos (show (84853 : ℝ) > altitudes[3 + 1] by norm_num [altitudes])]
    rw [bandScan_step 84853 4 (by norm_num [altitudes]),
      if_pos (show (84853 : ℝ) > altitudes[4 + 1] by norm_num [altitudes])]
    rw [bandScan_step 84853 5 (by norm_num [altitudes]),
      if_pos (show (84853 : ℝ) > altitudes[5 + 1] by norm_num [altitudes])]
    rw [bandScan_step 84853 6 (by norm_num [altitudes]),
      if_pos (show (84853 : ℝ) > altitudes[6 + 1] by norm_num [altitudes])]
    exact bandScan_stop 84853 7 (by norm_num [altitudes])
  unfold getDensity bandIndex
  rw [if_pos (by norm_num : (84853 : ℝ) > 0), hscan]

/-- Claim C1 (amended): for every real altitude up to the top table entry
`84852` (negative altitudes included) the band-selection scan of `getDensity`
stays within the bounds of the 8-entry altitude table and a density value is
returned; the original claim fails for altitudes strictly above `84852`,
where the scan overruns the table. -/
theorem getDensity_some_on_table_range (alt : ℝ) (h : alt ≤ 84852) :
    ∃ d, getDensity alt = some d := by
  obtain ⟨j, hj6, hbi⟩ := bandIndex_some_of_le_top alt h
  unfold getDensity
  rw [hbi]
  show ∃ d, bandDensity alt j = some d
  unfold bandDensity
  rw [List.getElem?_eq_getElem (show j < temperatures.length by simp [temperatures]; omega)]
  rw [List.getElem?_eq_getElem (show j < tempGrads.length by simp [tempGrads]; omega)]
  rw [List.getElem?_eq_getElem (show j < pressureRels.length by simp [pressureRels]; omega)]
  rw [List.getElem?_eq_getElem (show j < altitudes.length by simp [altitudes]; omega)]
  exact ⟨_, rfl⟩

/-- Witness for `getDensity_some_on_table_range` at the top table altitude. -/
theorem getDensity_some_on_table_range_witness :
    (84852 : ℝ) ≤ 84852 ∧ ∃ d, getDensity 84852 = some d :=
  ⟨le_refl _, getDensity_some_on_table_range 84852 (le_refl _)⟩

/-- Claim C2, counterexample: at `measured_rate = -1` and altitude `0` the
code returns `sqrt((1.225/1.225) * (-1)^2) = 1`, not
`measured_rate * sqrt(density/1.225) = -1`; the sign of a negative rate is
discarded, refuting both the general product form and the identity at
altitude `0` for negative rates. -/
theorem seaLevelDescentRate_neg_rate_cex :
    seaLevelDescentRate (-1) 0 = some 1 ∧
    ¬ seaLevelDescentRate (-1) 0 = some ((-1) * Real.sqrt (1.225 / 1.225)) := by
  have h1 : seaLevelDescentRate (-1) 0 = some 1 := by
    unfold seaLevelDescentRate
    rw [getDensity_zero]
    show some (Real.sqrt (1.225 / 1.225 * (-1 : ℝ) ^ 2)) = some 1
    rw [show (1.225 / 1.225 * (-1 : ℝ) ^ 2) = 1 by norm_num, Real.sqrt_one]
  refine ⟨h1, ?_⟩
  rw [h1]
  intro hcontra
  have heq := Option.some.inj hcontra
  rw [show (1.225 : ℝ) / 1.225 = 1 by norm_num, Real.sqrt_one] at heq
  norm_num at heq

/-- Claim C2 (amended): for nonnegative `measured_rate` the code result is
`measured_rate * sqrt(density/1.225)`, and at altitude `0` it equals
`measured_rate` itself; for negative rates the code instead returns the
absolute value (see the counterexample). -/
theorem seaLevelDescentRate_nonneg_rate (r : ℝ) (hr : 0 ≤ r) :
    (∀ alt rho, getDensity alt = some rho → 0 ≤ rho →
      seaLevelDescentRate r alt = some (r * Real.sqrt (rho / 1.225))) ∧
    seaLevelDescentRate r 0 = some r := by
  have key : ∀ alt rho, getDensity alt = some rho → 0 ≤ rho →
      seaLevelDescentRate r alt = some (r * Real.sqrt (rho / 1.225)) := by
    intro alt rho hd hrho
    unfold seaLevelDescentRate
    rw [hd]
    show some (Real.sqrt (rho / 1.225 * r ^ 2)) = _
    rw [Real.sqrt_mul (div_nonneg hrho (by norm_num)), Real.sqrt_sq hr, mul_comm]
  refine ⟨key, ?_⟩
  rw [key 0 1.225 getDensity_zero (by norm_num)]
  rw [show (1.225 : ℝ) / 1.225 = 1 by norm_num, Real.sqrt_one, mul_one]

/-- Witness for `seaLevelDescentRate_nonneg_rate` at rate `2`, altitude `0`. -/
theorem seaLevelDescentRate_nonneg_rate_witness :
    seaLevelDescentRate 2 0 = some (2 * Real.sqrt (1.225 / 1.225)) ∧
    seaLevelDescentRate 2 0 = some 2 :=
  ⟨(seaLevelDescentRate_nonneg_rate 2 (by norm_num)).1 0 1.225 getDensity_zero (by norm_num),
    (seaLevelDescentRate_nonneg_rate 2 (by norm_num)).2⟩

/-- Claim C8: in the troposphere band (`0 ≤ a < b ≤ 11000`) the density
returned by `getDensity` is strictly decreasing. -/
theorem getDensity_strictAnti_troposphere (a b : ℝ) (h0 : 0 ≤ a) (hab : a < b)
    (hb : b ≤ 11000) :
    ∃ da db, getDensity a = some da ∧ getDensity b = some db ∧ db < da := by
  refine ⟨_, _, getDensity_band0 a (by linarith), getDensity_band0 b hb, ?_⟩
  set E := gMR / (-6.5 / 1000) / 1000 with hEdef
  set Ta := (288.15 : ℝ) + -6.5 / 1000 * (a - 0) with hTadef
  set Tb := (288.15 : ℝ) + -6.5 / 1000 * (b - 0) with hTbdef
  have hTa_pos : 0 < Ta := by rw [hTadef]; linarith
  have hTb_pos : 0 < Tb := by rw [hTbdef]; linarith
  have hTba : Tb < Ta := by rw [hTadef, hTbdef]; linarith
  have hE : E + 1 < 0 := by
    rw [hEdef]
    norm_num [gMR]
  have hu : 288.15 / Ta < 288.15 / Tb :=
    div_lt_div_of_pos_left (by norm_num) hTb_pos hTba
  have hua_pos : (0 : ℝ) < 288.15 / Ta := div_pos (by norm_num) hTa_pos
  have form : ∀ T : ℝ, 0 < T →
      1.225 * (1 * (288.15 / T) ^ E) * 288.15 / T = 1.225 * (288.15 / T) ^ (E + 1) := by
    intro T hT
    rw [Real.rpow_add_one (ne_of_gt (div_pos (by norm_num) hT))]
    field_simp
    ring
  rw [form Ta hTa_pos, form Tb hTb_pos]
  have hlt : (288.15 / Tb) ^ (E + 1) < (288.15 / Ta) ^ (E + 1) :=
    Real.rpow_lt_rpow_of_neg hua_pos hu hE
  linarith

/-- Witness for `getDensity_strictAnti_troposphere` at the band endpoints. -/
theorem getDensity_strictAnti_troposphere_witness :
    (0 : ℝ) ≤ 0 ∧ (0 : ℝ) < 11000 ∧ (11000 : ℝ) ≤ 11000 ∧
    ∃ da db, getDensity 0 = some da ∧ getDensity 11000 = some db ∧ db < da :=
  ⟨le_refl _, by norm_num, le_refl _,
    getDensity_strictAnti_troposphere 0 11000 (le_refl _) (by norm_num) (le_refl _)⟩

/-- Claim C10: whenever `getDensity` returns a positive density, the
`seaLevelDescentRate` result is nonnegative and equals
`|measured_rate| * sqrt(density/1.225)`; in particular the sign of the input
rate is discarded, so rates `r` and `-r` give the same result. -/
theorem seaLevelDescentRate_abs_form (r alt rho : ℝ) (hd : getDensity alt = some rho)
    (hrho : 0 < rho) :
    ∃ v, seaLevelDescentRate r alt = some v ∧ 0 ≤ v ∧
      v = |r| * Real.sqrt (rho / 1.225) ∧ seaLevelDescentRate (-r) alt = some v := by
  refine ⟨Real.sqrt (rho / 1.225 * r ^ 2), ?_, Real.sqrt_nonneg _, ?_, ?_⟩
  · unfold seaLevelDescentRate
    rw [hd]
    rfl
  · rw [Real.sqrt_mul (div_nonneg hrho.le (by norm_num)), Real.sqrt_sq_eq_abs, mul_comm]
  · unfold seaLevelDescentRate
    rw [hd]
    show some (Real.sqrt (rho / 1.225 * (-r) ^ 2)) = _
    rw [show ((-r : ℝ)) ^ 2 = r ^ 2 by ring]

/-- Witness for `seaLevelDescentRate_abs_form` at rate `-3`, altitude `0`. -/
theorem seaLevelDescentRate_abs_form_witness :
    ∃ v, seaLevelDescentRate (-3) 0 = some v ∧ 0 ≤ v ∧
      v = |(-3 : ℝ)| * Real.sqrt (1.225 / 1.225) ∧
      seaLevelDescentRate (-(-3)) 0 = some v :=
  seaLevelDescentRate_abs_form (-3) 0 1.225 getDensity_zero (by norm_num)

/-- Claim C3, counterexample: for the antipodal pair observer `(0, 0, 0)` and
target `(0, 180, 0)` the elevation returned by `position_info` is exactly
`-90` degrees, so the elevation does reach the endpoint `-90` excluded by the
claimed half-open interval `(-90, 90]`. -/
theorem position_info_elevation_antipodal_cex :
    (position_info (0, 0, 0) (0, 180, 0)).elevation = -90 ∧
    ¬ (-90 < (position_info (0, 0, 0) (0, 180, 0)).elevation) := by
  have hmain : (position_info (0, 0, 0) (0, 180, 0)).elevation = -90 := by
    simp only [position_info]
    have h0 : radians 0 = 0 := by rw [radians]; ring
    have h180 : radians 180 = Real.pi := by rw [radians]; field_simp
    rw [h0, h180, show Real.pi - 0 = Real.pi by ring]
    have hsa : Real.cos 0 * Real.sin Real.pi = 0 := by simp
    have hsb : Real.cos 0 * Real.sin 0 - Real.sin 0 * Real.cos 0 * Real.cos Real.pi = 0 := by
      simp
    rw [hsa, hsb]
    have haa : Real.sqrt ((0 : ℝ) ^ 2 + 0 ^ 2) = 0 := by simp
    have hab : Real.sin 0 * Real.sin 0 + Real.cos 0 * Real.cos 0 * Real.cos Real.pi = -1 := by
      simp
    rw [haa, hab]
    rw [atan2_zero_neg (-1) (by norm_num)]
    have hea : Real.cos Real.pi * (6364963 + (0 : ℝ)) - (6364963 + (0 : ℝ)) = -12729926 := by
      rw [Real.cos_pi]
      norm_num
    have heb : Real.sin Real.pi * (6364963 + (0 : ℝ)) = 0 := by simp
    rw [hea, heb]
    rw [atan2_neg_zero _ (by norm_num : (-12729926 : ℝ) < 0)]
    rw [degrees]
    field_simp
    ring
  exact ⟨hmain, by rw [hmain]; exact lt_irrefl _⟩

/-- Claim C3 (amended): whenever the target altitude is at least `-6364963` m
(so that its distance from the Earth's centre is nonnegative; every physical
altitude qualifies), the elevation returned by `position_info` lies in the
closed interval `[-90, 90]`; the endpoint `-90` is attained at antipodal
inputs, so the claimed open lower bound fails. -/
theorem position_info_elevation_mem_Icc (listener balloon : ℝ × ℝ × ℝ)
    (h : -6364963 ≤ balloon.2.2) :
    -90 ≤ (position_info listener balloon).elevation ∧
    (position_info listener balloon).elevation ≤ 90 := by
  simp only [position_info]
  apply degrees_abs_le_90
  apply abs_atan2_le_pi_div_two
  apply mul_nonneg
  · exact Real.sin_nonneg_of_nonneg_of_le_pi
      (atan2_nonneg _ _ (Real.sqrt_nonneg _)) (atan2_le_pi _ _)
  · linarith

/-- Witness for `position_info_elevation_mem_Icc` at observer `(0, 0, 0)` and
target `(0, 0, 1000)`. -/
theorem position_info_elevation_mem_Icc_witness :
    -6364963 ≤ ((0 : ℝ), (0 : ℝ), (1000 : ℝ)).2.2 ∧
    (-90 ≤ (position_info (0, 0, 0) (0, 0, 1000)).elevation ∧
      (position_info (0, 0, 0) (0, 0, 1000)).elevation ≤ 90) :=
  ⟨by norm_num, position_info_elevation_mem_Icc (0, 0, 0) (0, 0, 1000) (by norm_num)⟩

/-- Claim C6: both distance outputs of `position_info` are symmetric in the
two positions. -/
theorem position_info_distance_symm (A B : ℝ × ℝ × ℝ) :
    (position_info A B).great_circle_distance = (position_info B A).great_circle_distance ∧
    (position_info A B).straight_distance = (position_info B A).straight_distance := by
  simp only [position_info]
  rw [show radians A.2.1 - radians B.2.1 = -(radians B.2.1 - radians A.2.1) by ring]
  have hangle := angle_expr_symm (radians A.1) (radians B.1)
    (radians B.2.1 - radians A.2.1)
  rw [hangle]
  constructor
  · rfl
  · congr 1
    ring

/-- Claim C7: the bearing output of `position_info` is always normalized into
`[0, 360)` degrees. -/
theorem position_info_bearing_range (listener balloon : ℝ × ℝ × ℝ) :
    0 ≤ (position_info listener balloon).bearing ∧
    (position_info listener balloon).bearing < 360 := by
  simp only [position_info]
  exact norm_bearing_mem _ (neg_pi_lt_atan2 _ _) (atan2_le_pi _ _)

/-- Claim C9: for the literal overhead pair — observer
`(37.4300, -89.6436, 161)`, target `(37.4300, -89.6436, 1000)` —
`position_info` returns elevation exactly `90` degrees, bearing exactly `0`
degrees, and straight-line distance exactly `839` metres. -/
theorem position_info_overhead_literal :
    (position_info (37.4300, -89.6436, 161) (37.4300, -89.6436, 1000)).elevation = 90 ∧
    (position_info (37.4300, -89.6436, 161) (37.4300, -89.6436, 1000)).bearing = 0 ∧
    (position_info (37.4300, -89.6436, 161) (37.4300, -89.6436, 1000)).straight_distance
      = 839 := by
  have h := position_info_same_latlon 37.4300 (-89.6436) 161 1000 (by norm_num)
  exact ⟨h.2.1, h.1, by rw [h.2.2]; norm_num⟩

/-- Claim C5: the `step2.py` filter admits a record exactly when its computed
elevation is strictly above `min_el` and its time offset is strictly inside
the window (both boundaries excluded): a single record is kept iff it
satisfies `visPred`; any record in the output satisfies `visPred` (and is an
input record stored under its own serial); and any satisfying input record
leaves its serial mapped in the output. -/
theorem findVisible_inclusion (cfg : FilterConfig) (e : TelemetryEntry) :
    (findVisible cfg [e] e.serial = some e ↔ visPred cfg e) ∧
    (∀ rs s r, findVisible cfg rs s = some r → r ∈ rs ∧ r.serial = s ∧ visPred cfg r) ∧
    (∀ rs, e ∈ rs → visPred cfg e → ∃ r, findVisible cfg rs e.serial = some r) := by
  refine ⟨?_, ?_, ?_⟩
  · unfold findVisible
    rw [List.foldl_cons, List.foldl_nil]
    unfold filterStep
    by_cases hp : visPred cfg e
    · simp only [if_pos hp]
      constructor
      · exact fun _ => hp
      · intro _
        simp
    · simp only [if_neg hp]
      constructor
      · intro h
        exact Option.noConfusion h
      · intro h
        exact absurd h hp
  · intro rs s r h
    rcases foldl_filterStep_sound cfg rs _ s r h with h1 | h2
    · exact Option.noConfusion h1
    · exact h2
  · intro rs hmem hp
    exact Option.isSome_iff_exists.mp
      (foldl_filterStep_mem_isSome cfg rs e (fun _ => none) hmem hp)

/-- Witness for `findVisible_inclusion`: the single satisfying entry `entryA`
is kept under its serial. -/
theorem findVisible_inclusion_witness : findVisible cfgW [entryA] "X" = some entryA :=
  (findVisible_inclusion cfgW entryA).1.mpr visPred_entryA

/-- Claim C4: if two records at positions `i < j` share a serial and both
satisfy the visibility predicate, and `j` is the last satisfying input
position for that serial, then the filter maps the serial to the record at
position `j` — later satisfying records overwrite earlier ones. -/
theorem findVisible_last_match (cfg : FilterConfig) (rs : List TelemetryEntry) (i j : ℕ)
    (hi : i < rs.length) (hj : j < rs.length) (hij : i < j)
    (hser : rs[i].serial = rs[j].serial)
    (hpi : visPred cfg rs[i]) (hpj : visPred cfg rs[j])
    (hlast : ∀ k, ∀ hk : k < rs.length, j < k → rs[k].serial = rs[j].serial →
      ¬ visPred cfg rs[k]) :
    findVisible cfg rs rs[j].serial = some rs[j] := by
  have hdecomp : rs = rs.take j ++ rs[j] :: rs.drop (j + 1) := by
    conv_lhs => rw [← List.take_append_drop j rs]
    rw [List.drop_eq_getElem_cons hj]
  have hlater : ∀ e ∈ rs.drop (j + 1), e.serial = rs[j].serial → ¬ visPred cfg e := by
    intro e he hes hp
    obtain ⟨m, hm, hme⟩ := List.mem_iff_getElem.mp he
    have hm2 : m < rs.length - (j + 1) := by
      rw [List.length_drop] at hm
      exact hm
    have hmlen : j + 1 + m < rs.length := by omega
    have hgm : rs[j + 1 + m] = e := by
      rw [← hme, List.getElem_drop]
    exact hlast (j + 1 + m) hmlen (by omega) (by rw [hgm]; exact hes) (by rw [hgm]; exact hp)
  have key : findVisible cfg rs = findVisible cfg (rs.take j ++ rs[j] :: rs.drop (j + 1)) := by
    rw [← hdecomp]
  rw [key]
  unfold findVisible
  rw [List.foldl_append, List.foldl_cons]
  rw [foldl_filterStep_no_match cfg (rs.drop (j + 1)) rs[j].serial hlater]
  unfold filterStep
  rw [if_pos hpj]
  simp

/-- Witness for `findVisible_last_match`: two satisfying entries with serial
`X`; the later one (`entryB`) wins. -/
theorem findVisible_last_match_witness :
    findVisible cfgW [entryA, entryB] "X" = some entryB :=
  findVisible_last_match cfgW [entryA, entryB] 0 1 (by simp) (by simp) (by norm_num)
    rfl visPred_entryA visPred_entryB
    (by intro k hk hgt hser hp; simp at hk; omega)

end
